import Mathlib

/-!
Shallow embedding of the yywManager attendance-and-billing plugin
(`src/main.py`).  Monetary amounts and timestamps are modelled as
rationals, calendar dates and identities as strings.  The Python source
stores amounts as SQLite `REAL` and computes on them as IEEE-754
binary64 doubles; where that rounding itself is the property under
scrutiny it is modelled explicitly by `roundDouble` (round to nearest,
ties to even, at 53 significant bits) rather than idealized away.  The SQLite table `user_data` is modelled as a
function from identity to an optional record, and each bot command is a
pure function from a store (plus the caller-supplied arguments, the
current time and the current date) to an outcome together with the
resulting store.
-/

namespace Yyw

/-- Configuration constant `HOURLY_FEE = 6.0` (main.py line 17). -/
def HOURLY_FEE : ℚ := 6

/-- Configuration constant `GRACE_PERIOD_SECONDS = 120` (main.py line 18). -/
def GRACE_PERIOD_SECONDS : ℚ := 120

/-- Derived constant `FEE_PER_30_MINS = HOURLY_FEE / 2` (main.py line 22). -/
def FEE_PER_30_MINS : ℚ := HOURLY_FEE / 2

/-- Static administrator allow-list `ADMIN_IDS` (main.py line 20). -/
def ADMIN_IDS : List String := ["2331103944", "87654321"]

/-- One row of the `user_data` table (main.py lines 64-73): identity,
balance, optional session-start timestamp, cumulative session time,
calendar day of the daily counter, amount consumed on that day, and the
multiplicative discount factor. -/
structure User where
  qq : String
  balance : ℚ
  joined_at : Option ℚ
  total_time : ℚ
  today_date : String
  today_consumption : ℚ
  discount : ℚ
deriving DecidableEq, Repr

/-- The durable account table: identity to optional record. -/
def Store : Type := String → Option User

/-- The empty table. -/
def emptyStore : Store := fun _ => none

/-- Write one record back into the table. -/
def setStore (s : Store) (qq : String) (u : User) : Store :=
  fun q => if q = qq then some u else s q

/-- Record created by the `INSERT` branch of `_get_user` (main.py lines
170-179): the explicit columns are `qq`, `today_date` and `discount`, the
rest take the schema defaults `balance=0`, `joined_at=NULL`,
`total_time=0`, `today_consumption=0`. -/
def defaultUser (qq today : String) : User :=
  { qq := qq, balance := 0, joined_at := none, total_time := 0,
    today_date := today, today_consumption := 0, discount := 1 }

/-- Embedding of `_get_user` (main.py lines 157-189): load the row or
create a default one, then perform the lazy daily rollover — when the
stored `today_date` differs from the current day, set it to the current
day and reset `today_consumption` to 0, persisting the change.  Returns
the loaded record together with the resulting table. -/
def getUser (s : Store) (qq today : String) : User × Store :=
  let u0 := match s qq with
    | some u => u
    | none => defaultUser qq today
  let u := if u0.today_date ≠ today then
      { u0 with today_date := today, today_consumption := 0 }
    else u0
  (u, setStore s qq u)

/-- Exact value of `math.ceil(x / n)` for a rational `x` and a positive
integer divisor `n`, computed on the numerator/denominator representation
so that it evaluates by kernel reduction: the ceiling of `a / b` for
`b > 0` is `-((-a) fdiv b)`. -/
def ceilDiv (x : ℚ) (n : ℕ) : ℤ :=
  -Int.fdiv (-x.num) (x.den * n)

/-- Outcome of the check-out command `退勤` (`cmd_leave`). -/
inductive LeaveOutcome where
  | notCheckedIn
  | waived
  | insufficient (fee : ℚ)
  | success (duration fee : ℚ)
deriving DecidableEq, Repr

/-- Embedding of `cmd_leave` (main.py lines 229-266): load the account
(with rollover), refuse when idle; compute `duration = now - joined_at`;
within the grace period only clear `joined_at`; otherwise bill
`ceil(duration / 1800)` units at `FEE_PER_30_MINS` each, scaled by the
stored discount, refuse without mutation when the balance is short, and
otherwise debit the fee, add it to today's consumption, add the duration
to the total time and clear `joined_at`. -/
def cmd_leave (s : Store) (qq today : String) (now : ℚ) : LeaveOutcome × Store :=
  let (u, s1) := getUser s qq today
  match u.joined_at with
  | none => (.notCheckedIn, s1)
  | some t =>
    let duration := now - t
    if duration ≤ GRACE_PERIOD_SECONDS then
      (.waived, setStore s1 qq { u with joined_at := none })
    else
      let billing_units : ℤ := ceilDiv duration 1800
      let base_fee : ℚ := (billing_units : ℚ) * FEE_PER_30_MINS
      let final_fee : ℚ := base_fee * u.discount
      if u.balance < final_fee then
        (.insufficient final_fee, s1)
      else
        (.success duration final_fee,
         setStore s1 qq
           { u with balance := u.balance - final_fee,
                    today_consumption := u.today_consumption + final_fee,
                    total_time := u.total_time + duration,
                    joined_at := none })

/-- Embedding of `cmd_attend` (main.py lines 217-227): refuse when a
session is already open, otherwise record the current instant. -/
inductive AttendOutcome where
  | alreadyActive
  | ok
deriving DecidableEq, Repr

/-- Check-in command `出勤`. -/
def cmd_attend (s : Store) (qq today : String) (now : ℚ) : AttendOutcome × Store :=
  let (u, s1) := getUser s qq today
  match u.joined_at with
  | some _ => (.alreadyActive, s1)
  | none => (.ok, setStore s1 qq { u with joined_at := some now })

/-- Fee function as the specification words it (§4.3 `elapsedFee`): full
waiver within the grace period, otherwise 30-minute units rounded up,
each at half the hourly rate, scaled by the discount. -/
def elapsedFee (d rate disc : ℚ) : ℚ :=
  if d ≤ GRACE_PERIOD_SECONDS then 0 else (⌈d / 1800⌉ : ℚ) * (rate / 2) * disc

/-- Balance of an identity in a table, 0 when absent. -/
def balanceOf (s : Store) (qq : String) : ℚ :=
  match s qq with
  | some u => u.balance
  | none => 0

/-- Python `str.isdigit()` as used on the target identity (main.py line
338): true exactly when the string is nonempty and every character is a
digit. -/
def pyIsDigit (s : String) : Bool :=
  !s.data.isEmpty && s.data.all Char.isDigit

/-- The two admin balance operations `充值` (credit) and `扣款` (debit)
dispatched through `_admin_op`. -/
inductive AdminOp where
  | credit
  | debit
deriving DecidableEq, Repr

/-- Outcome of `_admin_op`. -/
inductive AdminOutcome where
  | permissionDenied
  | formatError
  | insufficient
  | ok (newBalance : ℚ)
deriving DecidableEq, Repr

/-- Embedding of `_admin_op` (main.py lines 329-363).  The caller must be
on the allow-list; the target identity must pass `str.isdigit`; the
amount token must parse as a number (`amountArg = some a` stands for a
successful Python `float(amount_str)`, `none` for a raised `ValueError`)
and be strictly positive.  All of these checks happen before the target
account is read or created.  Credit adds the amount; debit refuses when
the balance is short, otherwise subtracts it.  The `+`/`-` here are
exact on ℚ and so idealize the source's binary64 arithmetic; the
rounding binary64 performs on each stored result is modelled separately
by `roundDouble` and `creditDebitFloat`. -/
def admin_op (s : Store) (opQQ target : String) (amountArg : Option ℚ)
    (op : AdminOp) (today : String) : AdminOutcome × Store :=
  if opQQ ∈ ADMIN_IDS then
    if pyIsDigit target then
      match amountArg with
      | none => (.formatError, s)
      | some amount =>
        if amount ≤ 0 then (.formatError, s)
        else
          let (u, s1) := getUser s target today
          match op with
          | .credit =>
            let nb := u.balance + amount
            (.ok nb, setStore s1 target { u with balance := nb })
          | .debit =>
            if u.balance < amount then (.insufficient, s1)
            else
              let nb := u.balance - amount
              (.ok nb, setStore s1 target { u with balance := nb })
    else (.formatError, s)
  else (.permissionDenied, s)

/-- The rate token of the `折扣` command, as classified by the parsing
code (main.py lines 389-392): a string ending in `%` whose numeric part
reads as the rational `x`, a plain numeric string reading as `x`, or a
string on which Python `float()` raises. -/
inductive RateToken where
  | percent (x : ℚ)
  | plain (x : ℚ)
  | malformed
deriving DecidableEq, Repr

/-- Numeric value of a rate token: `"x%"` divides by 100, a plain token
is taken as is, a malformed one raises (`none`). -/
def parseRate : RateToken → Option ℚ
  | .percent x => some (x / 100)
  | .plain x => some x
  | .malformed => none

/-- Outcome of `cmd_discount`. -/
inductive DiscountOutcome where
  | permissionDenied
  | formatError
  | ok (rate : ℚ)
deriving DecidableEq, Repr

/-- Embedding of `cmd_discount` (main.py lines 375-402): admin check,
digit check on the target, rate parsing, range check `0 < rate ≤ 1`, all
before any account access; on success the target account is loaded (or
created) and its stored discount is overwritten with the new rate. -/
def cmd_discount (s : Store) (opQQ target : String) (tok : RateToken)
    (today : String) : DiscountOutcome × Store :=
  if opQQ ∈ ADMIN_IDS then
    if pyIsDigit target then
      match parseRate tok with
      | none => (.formatError, s)
      | some rate =>
        if 0 < rate ∧ rate ≤ 1 then
          let (u, s1) := getUser s target today
          (.ok rate, setStore s1 target { u with discount := rate })
        else (.formatError, s)
    else (.formatError, s)
  else (.permissionDenied, s)

/-- Embedding of `cmd_rank` (main.py lines 315-327): the SQL query
`SELECT qq, balance FROM user_data ORDER BY balance DESC LIMIT 10` over
the table rows, modelled as a stable merge sort by descending balance
followed by taking the first ten rows. -/
def rankQuery (rows : List User) : List User :=
  (rows.mergeSort (fun a b => decide (b.balance ≤ a.balance))).take 10

/-!
Interleaving model for the check-out race.  The asyncio lock `_LOCK` is
held inside `_get_user` and inside `_update_user`, but released in
between, so one check-out command is two atomic actions on the shared
table: the load (with rollover) and the conditional write.  The fee
computation and the affordability check run on the snapshot taken by the
load.  `leaveWrite` is the second action: it re-reads the current row
(as `_update_user` does) and merges onto it the field values computed
from the snapshot. -/

/-- Second atomic action of a check-out: decide from the snapshot `snap`
and, when billing succeeds, write back through `_update_user`, which
merges the computed absolute field values onto the row currently in the
table. -/
def leaveWrite (s : Store) (qq : String) (snap : User) (now : ℚ) :
    LeaveOutcome × Store :=
  match snap.joined_at with
  | none => (.notCheckedIn, s)
  | some t =>
    let duration := now - t
    if duration ≤ GRACE_PERIOD_SECONDS then
      match s qq with
      | none => (.waived, s)
      | some cur => (.waived, setStore s qq { cur with joined_at := none })
    else
      let final_fee : ℚ := ((ceilDiv duration 1800 : ℤ) : ℚ) * FEE_PER_30_MINS * snap.discount
      if snap.balance < final_fee then
        (.insufficient final_fee, s)
      else
        match s qq with
        | none => (.insufficient final_fee, s)
        | some cur =>
          (.success duration final_fee,
           setStore s qq
             { cur with balance := snap.balance - final_fee,
                        today_consumption := snap.today_consumption + final_fee,
                        total_time := snap.total_time + duration,
                        joined_at := none })

/-- Two concurrent check-outs of the same account under the schedule
load₁, load₂, write₁, write₂ — reachable because the lock is released
between the load and the write of each task.  Returns both outcomes and
the final table. -/
def twoLeavesLoadLoadWriteWrite (s : Store) (qq today : String) (now : ℚ) :
    LeaveOutcome × LeaveOutcome × Store :=
  let (snap1, s1) := getUser s qq today
  let (snap2, s2) := getUser s1 qq today
  let (o1, s3) := leaveWrite s2 qq snap1 now
  let (o2, s4) := leaveWrite s3 qq snap2 now
  (o1, o2, s4)

/-- Rounding performed by the source's number type on every arithmetic
result: balances are SQLite `REAL` values combined with Python float
`+`/`-` (main.py lines 350-359), i.e. IEEE-754 binary64 — round to
nearest at 53 significant bits, ties to the even mantissa.  For a
nonzero value `q` the binary exponent `e` satisfies `2^e ≤ |q| < 2^(e+1)`,
the scaled mantissa is `|q| * 2^(52-e)`, and the integer mantissa is its
nearest integer with ties to even.  Overflow and subnormals lie far
outside the magnitudes involved here and are not modelled. -/
def roundDouble (q : ℚ) : ℚ :=
  if q = 0 then 0
  else
    let s : ℚ := if q < 0 then -1 else 1
    let e : ℤ := Int.log 2 |q|
    let scaled : ℚ := |q| * 2 ^ ((52 : ℤ) - e)
    let m0 : ℤ := ⌊scaled⌋
    let m : ℤ :=
      if scaled - m0 < 1/2 then m0
      else if (1:ℚ)/2 < scaled - m0 then m0 + 1
      else if m0 % 2 = 0 then m0 else m0 + 1
    s * (m : ℚ) * 2 ^ (e - 52)

/-- Balance left by the admin sequence `充值 A` then `扣款 A` on a
balance `b`, as the source computes it in binary64 (main.py lines
350-359): the credit persists `round(b + A)` and the debit persists
`round(round(b + A) - A)`; `b` and `A` are themselves doubles, as every
stored balance and every parsed amount is. -/
def creditDebitFloat (b A : ℚ) : ℚ :=
  roundDouble (roundDouble (b + A) - A)

/-!
Helper lemmas shared by the claim theorems.
-/

/-- The derived constant evaluates to 3 currency units per half hour. -/
theorem FEE_PER_30_MINS_eq : FEE_PER_30_MINS = 3 := by
  norm_num [FEE_PER_30_MINS, HOURLY_FEE]

/-- The executable `ceilDiv` agrees with the mathematical ceiling of the
quotient, certifying that it embeds `math.ceil(x / n)`. -/
theorem ceilDiv_eq_ceil (x : ℚ) (n : ℕ) (hn : 0 < n) :
    ceilDiv x n = ⌈x / (n : ℚ)⌉ := by
  have hb : (0:ℤ) ≤ (x.den : ℤ) * (n : ℤ) := by positivity
  rw [ceilDiv, Int.fdiv_eq_ediv _ hb]
  have hd : (x.den : ℚ) ≠ 0 := by
    exact_mod_cast x.den_nz
  have hn' : (n : ℚ) ≠ 0 := by
    exact_mod_cast hn.ne'
  have hx' : (x.num : ℚ) = x * (x.den : ℚ) := (div_eq_iff hd).mp (Rat.num_div_den x)
  have h1 : -(x / (n : ℚ)) = ((-x.num : ℤ) : ℚ) / (((x.den : ℤ) * (n : ℤ) : ℤ) : ℚ) := by
    push_cast
    rw [hx']
    field_simp
    rw [hx']
    ring
  have h2 : ⌈x / (n : ℚ)⌉ = -⌊-(x / (n : ℚ))⌋ := by
    rw [Int.floor_neg]
    ring
  rw [h2, h1]
  have h3 : (((x.den : ℤ) * (n : ℤ) : ℤ) : ℚ) = ((x.den * n : ℕ) : ℚ) := by push_cast; ring
  rw [h3, Rat.floor_intCast_div_natCast]
  have h4 : ((x.den * n : ℕ) : ℤ) = (x.den : ℤ) * (n : ℤ) := by push_cast; ring
  rw [h4]

/-- Fee actually charged by the check-out code for a session of duration
`d` at discount `disc`, matching `cmd_leave`'s `final_fee`. -/
def codeFee (d disc : ℚ) : ℚ :=
  ((ceilDiv d 1800 : ℤ) : ℚ) * FEE_PER_30_MINS * disc

/-- The code's fee term coincides with the specification's `elapsedFee`
formula whenever the duration exceeds the grace period. -/
theorem codeFee_eq_elapsedFee (d disc : ℚ) (h : GRACE_PERIOD_SECONDS < d) :
    codeFee d disc = elapsedFee d HOURLY_FEE disc := by
  rw [codeFee, elapsedFee, if_neg (by exact not_le.mpr h)]
  rw [ceilDiv_eq_ceil _ _ (by norm_num)]
  norm_num
  exact Or.inl (Or.inl rfl)

/-- Looking up the identity just written returns the written record. -/
theorem setStore_self (s : Store) (qq : String) (u : User) :
    setStore s qq u qq = some u := by
  simp [setStore]

/-- Looking up any other identity is unaffected by a write. -/
theorem setStore_other (s : Store) (qq q : String) (u : User) (h : q ≠ qq) :
    setStore s qq u q = s q := by
  simp [setStore, h]

/-- Writing back the record that is already stored changes nothing. -/
theorem setStore_eq_of_lookup (s : Store) (qq : String) (u : User)
    (hu : s qq = some u) : ∀ q, setStore s qq u q = s q := by
  intro q
  by_cases h : q = qq
  · subst h
    simp [setStore, hu]
  · simp [setStore, h]

/-- Loading an account that exists and is already on the current day
returns it unchanged and writes back the identical record. -/
theorem getUser_same_day (s : Store) (qq today : String) (u : User)
    (hu : s qq = some u) (hd : u.today_date = today) :
    getUser s qq today = (u, setStore s qq u) := by
  simp [getUser, hu, hd]

/-- Loading an account stored under a different calendar day rolls
`today_date` forward and resets `today_consumption`, persisting the
rolled record. -/
theorem getUser_rollover (s : Store) (qq today : String) (u : User)
    (hu : s qq = some u) (hd : u.today_date ≠ today) :
    getUser s qq today =
      ({ u with today_date := today, today_consumption := 0 },
       setStore s qq { u with today_date := today, today_consumption := 0 }) := by
  simp [getUser, hu, hd]

/-- Evaluation fixture fact: one full billing unit at no discount costs 3. -/
theorem elapsedFee_1800 : elapsedFee 1800 HOURLY_FEE 1 = 3 := by
  rw [elapsedFee, if_neg (by norm_num [GRACE_PERIOD_SECONDS])]
  rw [show (1800 : ℚ) / 1800 = 1 by norm_num]
  norm_num [HOURLY_FEE]

/-- Concrete fixture: an account checked in at time 0 with balance 3. -/
def wUser : User :=
  { qq := "100", balance := 3, joined_at := some 0, total_time := 0,
    today_date := "20260101", today_consumption := 0, discount := 1 }

/-- Fixture store holding only `wUser`. -/
def wStore : Store := setStore emptyStore "100" wUser

/-- Concrete fixture: as `wUser` but with balance 1, short of one unit. -/
def wPoorUser : User := { wUser with balance := 1 }

/-- Fixture store holding only `wPoorUser`. -/
def wPoorStore : Store := setStore emptyStore "100" wPoorUser

/-- C1: for every check-out with elapsed duration `d`, if
`d ≤ gracePeriodSeconds` the fee is 0, and otherwise the fee charged and
debited equals `ceil(d / 1800) * (hourlyRate / 2) * discount` with the
account's stored discount, exactly the specification's `elapsedFee`. -/
theorem checkout_fee_formula (s : Store) (qq today : String) (u : User) (t now : ℚ)
    (hu : s qq = some u) (hd : u.today_date = today) (ht : u.joined_at = some t) :
    (now - t ≤ GRACE_PERIOD_SECONDS →
      (cmd_leave s qq today now).1 = .waived ∧
      elapsedFee (now - t) HOURLY_FEE u.discount = 0) ∧
    (GRACE_PERIOD_SECONDS < now - t →
      elapsedFee (now - t) HOURLY_FEE u.discount ≤ u.balance →
      (cmd_leave s qq today now).1 =
        .success (now - t) (elapsedFee (now - t) HOURLY_FEE u.discount) ∧
      balanceOf (cmd_leave s qq today now).2 qq =
        u.balance - elapsedFee (now - t) HOURLY_FEE u.discount) := by
  have hg := getUser_same_day s qq today u hu hd
  constructor
  · intro hgrace
    constructor
    · simp only [cmd_leave, hg, ht]
      rw [if_pos hgrace]
    · rw [elapsedFee, if_pos hgrace]
  · intro hgrace haff
    have hfee : ((ceilDiv (now - t) 1800 : ℤ) : ℚ) * FEE_PER_30_MINS * u.discount
        = elapsedFee (now - t) HOURLY_FEE u.discount :=
      codeFee_eq_elapsedFee (now - t) u.discount hgrace
    constructor
    · simp only [cmd_leave, hg, ht]
      rw [if_neg (not_le.mpr hgrace), hfee, if_neg (not_lt.mpr haff)]
    · simp only [cmd_leave, hg, ht, balanceOf]
      rw [if_neg (not_le.mpr hgrace), hfee, if_neg (not_lt.mpr haff)]
      simp [setStore]

/-- C1 witness: checking out `wUser` after 1800 seconds succeeds and
charges the `elapsedFee` of that duration. -/
theorem checkout_fee_formula_witness :
    (cmd_leave wStore "100" "20260101" 1800).1 =
      .success (1800 - 0) (elapsedFee (1800 - 0) HOURLY_FEE 1) := by
  have h := (checkout_fee_formula wStore "100" "20260101" wUser 0 1800
    rfl rfl rfl).2 (by norm_num [GRACE_PERIOD_SECONDS])
    (by norm_num [wUser, elapsedFee_1800])
  exact h.1

/-- C2: a check-out by an ACTIVE account whose balance is strictly below
the computed fee reports an insufficient-balance failure and leaves the
whole store — balance, today's consumption, total time and the open
session — unchanged. -/
theorem checkout_insufficient_noop (s : Store) (qq today : String) (u : User)
    (t now : ℚ)
    (hu : s qq = some u) (hd : u.today_date = today) (ht : u.joined_at = some t)
    (hgrace : GRACE_PERIOD_SECONDS < now - t)
    (hpoor : u.balance < elapsedFee (now - t) HOURLY_FEE u.discount) :
    (cmd_leave s qq today now).1 =
      .insufficient (elapsedFee (now - t) HOURLY_FEE u.discount) ∧
    ∀ q, (cmd_leave s qq today now).2 q = s q := by
  have hg := getUser_same_day s qq today u hu hd
  have hfee : ((ceilDiv (now - t) 1800 : ℤ) : ℚ) * FEE_PER_30_MINS * u.discount
      = elapsedFee (now - t) HOURLY_FEE u.discount :=
    codeFee_eq_elapsedFee (now - t) u.discount hgrace
  constructor
  · simp only [cmd_leave, hg, ht]
    rw [if_neg (not_le.mpr hgrace), hfee, if_pos hpoor]
  · intro q
    simp only [cmd_leave, hg, ht]
    rw [if_neg (not_le.mpr hgrace), hfee, if_pos hpoor]
    exact setStore_eq_of_lookup s qq u hu q

/-- C2 witness: `wPoorUser` (balance 1) cannot pay the 3-unit fee after
1800 seconds; the outcome is insufficient and the record is untouched. -/
theorem checkout_insufficient_noop_witness :
    (cmd_leave wPoorStore "100" "20260101" 1800).1 =
      .insufficient (elapsedFee (1800 - 0) HOURLY_FEE 1) ∧
    (cmd_leave wPoorStore "100" "20260101" 1800).2 "100" = some wPoorUser := by
  have h := checkout_insufficient_noop wPoorStore "100" "20260101" wPoorUser 0 1800
    rfl rfl rfl (by norm_num [GRACE_PERIOD_SECONDS])
    (by norm_num [wPoorUser, wUser, elapsedFee_1800])
  exact ⟨h.1, by rw [h.2 "100"]; rfl⟩

/-- C7: a check-out within the grace period reports the waived outcome,
clears `joined_at`, and leaves balance, total time and today's
consumption exactly as they were; other accounts are untouched. -/
theorem checkout_grace_waived (s : Store) (qq today : String) (u : User)
    (t now : ℚ)
    (hu : s qq = some u) (hd : u.today_date = today) (ht : u.joined_at = some t)
    (hgrace : now - t ≤ GRACE_PERIOD_SECONDS) :
    (cmd_leave s qq today now).1 = .waived ∧
    (cmd_leave s qq today now).2 qq = some { u with joined_at := none } ∧
    ∀ q, q ≠ qq → (cmd_leave s qq today now).2 q = s q := by
  have hg := getUser_same_day s qq today u hu hd
  refine ⟨?_, ?_, ?_⟩
  · simp only [cmd_leave, hg, ht]
    rw [if_pos hgrace]
  · simp only [cmd_leave, hg, ht]
    rw [if_pos hgrace]
    simp [setStore]
  · intro q hq
    simp only [cmd_leave, hg, ht]
    rw [if_pos hgrace]
    simp [setStore, hq]

/-- C7 witness: checking `wUser` out at t = 100 (within the 120-second
grace period) waives the fee and only clears the session. -/
theorem checkout_grace_waived_witness :
    (cmd_leave wStore "100" "20260101" 100).1 = .waived ∧
    (cmd_leave wStore "100" "20260101" 100).2 "100" =
      some { wUser with joined_at := none } := by
  have h := checkout_grace_waived wStore "100" "20260101" wUser 0 100
    rfl rfl rfl (by norm_num [GRACE_PERIOD_SECONDS])
  exact ⟨h.1, h.2.1⟩

/-- Overwriting the same identity twice keeps only the second write. -/
theorem setStore_setStore (s : Store) (qq : String) (x y : User) :
    setStore (setStore s qq x) qq y = setStore s qq y := by
  funext q
  by_cases h : q = qq <;> simp [setStore, h]

/-- The record returned by a load is exactly the record persisted. -/
theorem getUser_lookup (s : Store) (qq today : String) :
    (getUser s qq today).2 qq = some (getUser s qq today).1 := by
  simp [getUser, setStore]

/-- Loading never changes the balance: rollover touches only the date and
the daily counter, and a fresh record starts at the stored default 0. -/
theorem getUser_balance (s : Store) (qq today : String) :
    (getUser s qq today).1.balance = balanceOf s qq := by
  cases h : s qq <;> simp [getUser, balanceOf, h, defaultUser] <;> split <;> simp

/-- The record returned by a load always carries the current day. -/
theorem getUser_today (s : Store) (qq today : String) :
    (getUser s qq today).1.today_date = today := by
  cases h : s qq <;> simp [getUser, h, defaultUser] <;> split <;> simp_all

/-- Characterization of the binary exponent: `Int.log 2 q = e` exactly
when `2^e ≤ q < 2^(e+1)`. -/
theorem int_log2_eq (q : ℚ) (e : ℤ) (h1 : (2:ℚ) ^ e ≤ q) (h2 : q < (2:ℚ) ^ (e + 1)) :
    Int.log 2 q = e := by
  have hq : 0 < q := lt_of_lt_of_le (by positivity) h1
  have hL1 : (2:ℚ) ^ Int.log 2 q ≤ q := @Int.zpow_log_le_self ℚ _ _ 2 q (by norm_num) hq
  have hL2 : q < (2:ℚ) ^ (Int.log 2 q + 1) :=
    @Int.lt_zpow_succ_log_self ℚ _ _ 2 (by norm_num) q
  by_contra hne
  rcases lt_or_gt_of_ne hne with hlt | hgt
  · have : (2:ℚ) ^ (Int.log 2 q + 1) ≤ (2:ℚ) ^ e :=
      zpow_le_zpow_right₀ (by norm_num) (by omega)
    linarith
  · have : (2:ℚ) ^ (e + 1) ≤ (2:ℚ) ^ (Int.log 2 q) :=
      zpow_le_zpow_right₀ (by norm_num) (by omega)
    linarith

/-- Unfolding rule for `roundDouble` on a positive input once its binary
exponent window is known. -/
theorem roundDouble_of_pos (q : ℚ) (e : ℤ) (hq : 0 < q)
    (h1 : (2:ℚ) ^ e ≤ q) (h2 : q < (2:ℚ) ^ (e + 1)) :
    roundDouble q =
      (((if q * 2 ^ ((52 : ℤ) - e) - ⌊q * 2 ^ ((52 : ℤ) - e)⌋ < 1/2 then
          ⌊q * 2 ^ ((52 : ℤ) - e)⌋
        else if (1:ℚ)/2 < q * 2 ^ ((52 : ℤ) - e) - ⌊q * 2 ^ ((52 : ℤ) - e)⌋ then
          ⌊q * 2 ^ ((52 : ℤ) - e)⌋ + 1
        else if ⌊q * 2 ^ ((52 : ℤ) - e)⌋ % 2 = 0 then ⌊q * 2 ^ ((52 : ℤ) - e)⌋
        else ⌊q * 2 ^ ((52 : ℤ) - e)⌋ + 1) : ℤ) : ℚ) * 2 ^ (e - 52) := by
  rw [roundDouble, if_neg hq.ne', abs_of_pos hq, int_log2_eq q e h1 h2,
    if_neg (not_lt.mpr hq.le)]
  simp only [one_mul]

/-- The double nearest 0.1 (what Python stores for the literal `0.1`):
the scaled mantissa 7205759403792793.6 rounds up. -/
theorem roundDouble_tenth : roundDouble (1/10) = 3602879701896397 / 2 ^ 55 := by
  rw [roundDouble_of_pos (1/10) (-4) (by norm_num) (by norm_num) (by norm_num)]
  rw [show ((52 : ℤ) - (-4)) = (56 : ℤ) by norm_num,
    show (2:ℚ) ^ (56 : ℤ) = 72057594037927936 by norm_num]
  rw [show ⌊(1/10 : ℚ) * 72057594037927936⌋ = 7205759403792793 by
    rw [Int.floor_eq_iff]
    norm_num]
  rw [show (2:ℚ) ^ ((-4 : ℤ) - 52) = 1 / 72057594037927936 by norm_num]
  push_cast
  norm_num

/-- The double nearest 0.2 (what Python stores for the literal `0.2`). -/
theorem roundDouble_fifth : roundDouble (1/5) = 3602879701896397 / 2 ^ 54 := by
  rw [roundDouble_of_pos (1/5) (-3) (by norm_num) (by norm_num) (by norm_num)]
  rw [show ((52 : ℤ) - (-3)) = (55 : ℤ) by norm_num,
    show (2:ℚ) ^ (55 : ℤ) = 36028797018963968 by norm_num]
  rw [show ⌊(1/5 : ℚ) * 36028797018963968⌋ = 7205759403792793 by
    rw [Int.floor_eq_iff]
    norm_num]
  rw [show (2:ℚ) ^ ((-3 : ℤ) - 52) = 1 / 36028797018963968 by norm_num]
  push_cast
  norm_num

/-- Rounding of the exact sum `double(0.1) + double(0.2)`: the scaled
mantissa 5404319552844595.5 is a tie, the odd mantissa rounds to even,
giving the double 0.30000000000000004. -/
theorem roundDouble_sum03 :
    roundDouble (10808639105689191 / 2 ^ 55) = 5404319552844596 / 2 ^ 54 := by
  rw [roundDouble_of_pos (10808639105689191 / 2 ^ 55) (-2) (by norm_num) (by norm_num)
    (by norm_num)]
  rw [show ((52 : ℤ) - (-2)) = (54 : ℤ) by norm_num,
    show (2:ℚ) ^ (54 : ℤ) = 18014398509481984 by norm_num]
  rw [show ⌊(10808639105689191 / 2 ^ 55 : ℚ) * 18014398509481984⌋ = 5404319552844595 by
    rw [Int.floor_eq_iff]
    norm_num]
  rw [show (2:ℚ) ^ ((-2 : ℤ) - 52) = 1 / 18014398509481984 by norm_num]
  push_cast
  norm_num

/-- The difference `double(0.3…04) - double(0.2)` is exactly
representable (52 bits), so rounding returns it unchanged: the double
0.10000000000000003. -/
theorem roundDouble_point1eps :
    roundDouble (1801439850948199 / 2 ^ 54) = 1801439850948199 / 2 ^ 54 := by
  rw [roundDouble_of_pos (1801439850948199 / 2 ^ 54) (-4) (by norm_num) (by norm_num)
    (by norm_num)]
  rw [show ((52 : ℤ) - (-4)) = (56 : ℤ) by norm_num,
    show (2:ℚ) ^ (56 : ℤ) = 72057594037927936 by norm_num]
  rw [show ⌊(1801439850948199 / 2 ^ 54 : ℚ) * 72057594037927936⌋ = 7205759403792796 by
    rw [Int.floor_eq_iff]
    norm_num]
  rw [show (2:ℚ) ^ ((-4 : ℤ) - 52) = 1 / 72057594037927936 by norm_num]
  push_cast
  norm_num

/-- C4: the claim's round-trip is not exact in the source's binary64
arithmetic.  With the account balance at the double nearest 0.1 and the
admin amount the double nearest 0.2 — both reachable (credit 0.1 to a
fresh account, then credit and debit 0.2) — `充值 0.2` then `扣款 0.2`
as the code computes it (lines 350-359) leaves the balance at the
double 0.10000000000000003, not at the original balance: the claimed
"decimal-exact, no drift" restoration fails. -/
theorem credit_debit_float_drift :
    roundDouble (1/10) = 3602879701896397 / 2 ^ 55 ∧
    roundDouble (1/5) = 3602879701896397 / 2 ^ 54 ∧
    creditDebitFloat (3602879701896397 / 2 ^ 55) (3602879701896397 / 2 ^ 54) =
      1801439850948199 / 2 ^ 54 ∧
    creditDebitFloat (3602879701896397 / 2 ^ 55) (3602879701896397 / 2 ^ 54) ≠
      3602879701896397 / 2 ^ 55 := by
  have hval : creditDebitFloat (3602879701896397 / 2 ^ 55) (3602879701896397 / 2 ^ 54) =
      1801439850948199 / 2 ^ 54 := by
    rw [creditDebitFloat,
      show (3602879701896397 / 2 ^ 55 + 3602879701896397 / 2 ^ 54 : ℚ)
        = 10808639105689191 / 2 ^ 55 by norm_num,
      roundDouble_sum03,
      show (5404319552844596 / 2 ^ 54 - 3602879701896397 / 2 ^ 54 : ℚ)
        = 1801439850948199 / 2 ^ 54 by norm_num,
      roundDouble_point1eps]
  refine ⟨roundDouble_tenth, roundDouble_fifth, hval, ?_⟩
  rw [hval]
  norm_num

/-- C10: a credit, debit or set-discount request whose target identity is
not all digits, or whose amount/rate token is malformed or out of range,
fails with the format error and returns the store untouched — in
particular no account record is created for the target. -/
theorem malformed_admin_noop (s : Store) (op target today : String)
    (amountArg : Option ℚ) (tok : RateToken) (k : AdminOp)
    (hadmin : op ∈ ADMIN_IDS)
    (hbadA : pyIsDigit target = false ∨ amountArg = none ∨
      ∃ a, amountArg = some a ∧ a ≤ 0)
    (hbadR : pyIsDigit target = false ∨ parseRate tok = none ∨
      ∃ r, parseRate tok = some r ∧ ¬(0 < r ∧ r ≤ 1)) :
    admin_op s op target amountArg k today = (.formatError, s) ∧
    cmd_discount s op target tok today = (.formatError, s) := by
  constructor
  · by_cases hdig : pyIsDigit target
    · rcases hbadA with hbad | hnone | ⟨a, ha, hle⟩
      · rw [hdig] at hbad
        exact absurd hbad (by simp)
      · simp [admin_op, if_pos hadmin, hdig, hnone]
      · simp [admin_op, if_pos hadmin, hdig, ha, if_pos hle]
    · simp only [Bool.not_eq_true] at hdig
      simp [admin_op, if_pos hadmin, hdig]
  · by_cases hdig : pyIsDigit target
    · rcases hbadR with hbad | hnone | ⟨r, hr, hout⟩
      · rw [hdig] at hbad
        exact absurd hbad (by simp)
      · simp [cmd_discount, if_pos hadmin, hdig, hnone]
      · simp [cmd_discount, if_pos hadmin, hdig, hr, if_neg hout]
    · simp only [Bool.not_eq_true] at hdig
      simp [cmd_discount, if_pos hadmin, hdig]

/-- C10 witness: a credit and a set-discount aimed at the non-numeric
target `"12a"` both fail with the format error and leave the empty store
empty. -/
theorem malformed_admin_noop_witness :
    admin_op emptyStore "2331103944" "12a" (some 1) .credit "20260101" =
      (.formatError, emptyStore) ∧
    cmd_discount emptyStore "2331103944" "12a" .malformed "20260101" =
      (.formatError, emptyStore) :=
  malformed_admin_noop emptyStore "2331103944" "12a" "20260101" (some 1)
    .malformed .credit (by decide) (Or.inl (by decide)) (Or.inl (by decide))

/-- C6: `折扣` (set-discount) rejects every rate outside `(0, 1]` without
storing anything, treats the percent token `50%` and the decimal token
`0.5` identically, and on success stores exactly the new rate — the
loaded record's previous discount is overwritten, not combined. -/
theorem set_discount_behavior (s : Store) (op target today : String)
    (hadmin : op ∈ ADMIN_IDS) (hdigit : pyIsDigit target = true) :
    (∀ tok r, parseRate tok = some r → ¬(0 < r ∧ r ≤ 1) →
      cmd_discount s op target tok today = (.formatError, s)) ∧
    cmd_discount s op target (.percent 50) today =
      cmd_discount s op target (.plain (1/2)) today ∧
    (∀ tok r, parseRate tok = some r → 0 < r → r ≤ 1 →
      (cmd_discount s op target tok today).1 = .ok r ∧
      (cmd_discount s op target tok today).2 target =
        some { (getUser s target today).1 with discount := r }) ∧
    (cmd_discount s op target (.percent 50) today).2 target =
      some { (getUser s target today).1 with discount := 1/2 } := by
  have hok : ∀ tok r, parseRate tok = some r → 0 < r → r ≤ 1 →
      (cmd_discount s op target tok today).1 = .ok r ∧
      (cmd_discount s op target tok today).2 target =
        some { (getUser s target today).1 with discount := r } := by
    intro tok r hr h0 h1
    constructor
    · simp [cmd_discount, if_pos hadmin, hdigit, hr, if_pos (And.intro h0 h1)]
    · simp [cmd_discount, if_pos hadmin, hdigit, hr, if_pos (And.intro h0 h1),
        setStore_self]
  have hhalf : (50 : ℚ) / 100 = 1 / 2 := by norm_num
  refine ⟨?_, ?_, hok, ?_⟩
  · intro tok r hr hout
    simp [cmd_discount, if_pos hadmin, hdigit, hr, if_neg hout]
  · simp only [cmd_discount, parseRate, hhalf]
  · have h := (hok (.percent 50) ((50 : ℚ) / 100) rfl (by norm_num) (by norm_num)).2
    rw [h, hhalf]

/-- C6 witness: the percent and decimal forms of one half produce the
same result, and a percent-form request stores discount one half. -/
theorem set_discount_behavior_witness :
    cmd_discount emptyStore "2331103944" "123" (.percent 50) "20260101" =
      cmd_discount emptyStore "2331103944" "123" (.plain (1/2)) "20260101" ∧
    (cmd_discount emptyStore "2331103944" "123" (.percent 50) "20260101").2 "123" =
      some { (getUser emptyStore "123" "20260101").1 with discount := 1/2 } := by
  have h := set_discount_behavior emptyStore "2331103944" "123" "20260101"
    (by decide) (by decide)
  exact ⟨h.2.1, h.2.2.2⟩

/-- Fixture: an account stored under the old day `20260101` with daily
consumption 7, balance 3, an open session from time 0 and no discount. -/
def wOldUser : User :=
  { qq := "100", balance := 3, joined_at := some 0, total_time := 10,
    today_date := "20260101", today_consumption := 7, discount := 1 }

/-- Fixture store holding only `wOldUser`. -/
def wOldStore : Store := setStore emptyStore "100" wOldUser

/-- C5: exactly when an account is loaded on a day different from its
stored `today_date`, the date is set to the current day and the daily
consumption is reset to 0, and the rolled record is persisted by the
load itself; on the same day a load is a no-op; after a rollover the
previous consumption value is not recoverable — the outcome is the same
whatever it was. -/
theorem daily_rollover (s : Store) (qq today : String) (u : User)
    (hu : s qq = some u) :
    (u.today_date ≠ today →
      (getUser s qq today).1 =
        { u with today_date := today, today_consumption := 0 } ∧
      (getUser s qq today).2 qq =
        some { u with today_date := today, today_consumption := 0 }) ∧
    (u.today_date = today →
      (getUser s qq today).1 = u ∧ ∀ q, (getUser s qq today).2 q = s q) ∧
    (u.today_date ≠ today → ∀ N Nₓ : ℚ,
      getUser (setStore s qq { u with today_consumption := N }) qq today =
        getUser (setStore s qq { u with today_consumption := Nₓ }) qq today) := by
  refine ⟨?_, ?_, ?_⟩
  · intro hd
    rw [getUser_rollover s qq today u hu hd]
    exact ⟨rfl, setStore_self _ _ _⟩
  · intro hd
    rw [getUser_same_day s qq today u hu hd]
    exact ⟨rfl, setStore_eq_of_lookup s qq u hu⟩
  · intro hd N Nₓ
    have h1 := getUser_rollover (setStore s qq { u with today_consumption := N })
      qq today { u with today_consumption := N } (setStore_self _ _ _) (by simpa using hd)
    have h2 := getUser_rollover (setStore s qq { u with today_consumption := Nₓ })
      qq today { u with today_consumption := Nₓ } (setStore_self _ _ _) (by simpa using hd)
    rw [h1, h2, setStore_setStore, setStore_setStore]

/-- C5 witness: loading `wOldUser` on the later day `20270101` rolls the
date forward, zeroes the daily consumption, and persists the change. -/
theorem daily_rollover_witness :
    (getUser wOldStore "100" "20270101").1 =
      { wOldUser with today_date := "20270101", today_consumption := 0 } ∧
    (getUser wOldStore "100" "20270101").2 "100" =
      some { wOldUser with today_date := "20270101", today_consumption := 0 } := by
  have h := daily_rollover wOldStore "100" "20270101" wOldUser rfl
  exact h.1 (by decide)

/-- C9: the lazy rollover changes only `today_date` and
`today_consumption` — balance, discount, total time and the open session
survive it — so an account that is ACTIVE across a day boundary stays
checked in and a later check-out bills the full elapsed duration at the
preserved discount and balance. -/
theorem rollover_frame_active (s : Store) (qq today : String) (u : User) (t : ℚ)
    (hu : s qq = some u) (hd : u.today_date ≠ today) (ht : u.joined_at = some t) :
    (getUser s qq today).1.balance = u.balance ∧
    (getUser s qq today).1.discount = u.discount ∧
    (getUser s qq today).1.total_time = u.total_time ∧
    (getUser s qq today).1.joined_at = some t ∧
    ∀ now, GRACE_PERIOD_SECONDS < now - t →
      elapsedFee (now - t) HOURLY_FEE u.discount ≤ u.balance →
      (cmd_leave s qq today now).1 =
        .success (now - t) (elapsedFee (now - t) HOURLY_FEE u.discount) ∧
      (cmd_leave s qq today now).2 qq = some
        { u with balance := u.balance - elapsedFee (now - t) HOURLY_FEE u.discount,
                 today_date := today,
                 today_consumption := 0 + elapsedFee (now - t) HOURLY_FEE u.discount,
                 total_time := u.total_time + (now - t),
                 joined_at := none } := by
  have hg := getUser_rollover s qq today u hu hd
  refine ⟨by rw [hg], by rw [hg], by rw [hg], by rw [hg]; simpa using ht, ?_⟩
  intro now hgrace haff
  have hfee : ((ceilDiv (now - t) 1800 : ℤ) : ℚ) * FEE_PER_30_MINS * u.discount
      = elapsedFee (now - t) HOURLY_FEE u.discount :=
    codeFee_eq_elapsedFee (now - t) u.discount hgrace
  constructor
  · simp only [cmd_leave, hg, ht]
    rw [if_neg (not_le.mpr hgrace), hfee, if_neg (not_lt.mpr haff)]
  · simp only [cmd_leave, hg, ht]
    rw [if_neg (not_le.mpr hgrace), hfee, if_neg (not_lt.mpr haff)]
    simp [setStore]

/-- C9 witness: `wOldUser` (checked in at time 0 on the old day) is still
checked in after the rollover to `20270101`, keeps balance 3, and a
check-out at 1800 seconds bills the full half-hour unit. -/
theorem rollover_frame_active_witness :
    (getUser wOldStore "100" "20270101").1.balance = wOldUser.balance ∧
    (getUser wOldStore "100" "20270101").1.joined_at = some 0 ∧
    (cmd_leave wOldStore "100" "20270101" 1800).1 =
      .success (1800 - 0) (elapsedFee (1800 - 0) HOURLY_FEE wOldUser.discount) := by
  have h := rollover_frame_active wOldStore "100" "20270101" wOldUser 0
    rfl (by decide) rfl
  exact ⟨h.1, h.2.2.2.1,
    (h.2.2.2.2 1800 (by norm_num [GRACE_PERIOD_SECONDS])
      (by norm_num [wOldUser, elapsedFee_1800])).1⟩

/-- Comparator used by the rank query: descending balance, as a Boolean
relation for the merge sort. -/
def rankLe (a b : User) : Bool := decide (b.balance ≤ a.balance)

/-- C8: `排行榜` on a store of 15 accounts returns exactly 10 rows,
sorted by descending balance, and every returned row has a balance at
least as large as every omitted row; the order among equal balances is
the fixed order produced by the stable sort of the table, so repeated
queries agree. -/
theorem rank_top10 (rows : List User) (h : rows.length = 15) :
    (rankQuery rows).length = 10 ∧
    List.Pairwise (fun a b => b.balance ≤ a.balance) (rankQuery rows) ∧
    ∀ u ∈ rows, u ∉ rankQuery rows →
      ∀ v ∈ rankQuery rows, u.balance ≤ v.balance := by
  have htrans : ∀ (a b c : User), rankLe a b → rankLe b c → rankLe a c := by
    intro a b c hab hbc
    simp only [rankLe, decide_eq_true_eq] at *
    exact le_trans hbc hab
  have htotal : ∀ (a b : User), (rankLe a b || rankLe b a) = true := by
    intro a b
    simpa [rankLe] using le_total b.balance a.balance
  have hsorted : (rows.mergeSort rankLe).Pairwise (fun a b => rankLe a b) :=
    List.sorted_mergeSort htrans htotal rows
  have hq : rankQuery rows = (rows.mergeSort rankLe).take 10 := rfl
  refine ⟨?_, ?_, ?_⟩
  · rw [hq, List.length_take, List.length_mergeSort, h]
    decide
  · rw [hq]
    have := List.Pairwise.sublist (List.take_sublist 10 _) hsorted
    exact this.imp (by simp [rankLe])
  · intro u hu hnotin v hv
    rw [hq] at hnotin hv
    have humem : u ∈ (rows.mergeSort rankLe).take 10 ++ (rows.mergeSort rankLe).drop 10 := by
      rw [List.take_append_drop]
      exact List.mem_mergeSort.mpr hu
    have hudrop : u ∈ (rows.mergeSort rankLe).drop 10 := by
      rcases List.mem_append.mp humem with h1 | h2
      · exact absurd h1 hnotin
      · exact h2
    have hpa : List.Pairwise (fun a b => rankLe a b)
        ((rows.mergeSort rankLe).take 10 ++ (rows.mergeSort rankLe).drop 10) := by
      rw [List.take_append_drop]
      exact hsorted
    have := (List.pairwise_append.mp hpa).2.2 v hv u hudrop
    simpa [rankLe] using this

/-- Fixture: fifteen accounts with pairwise distinct balances 0..14. -/
def wRows : List User :=
  (List.range 15).map (fun i =>
    { qq := toString i, balance := (i : ℚ), joined_at := none, total_time := 0,
      today_date := "20260101", today_consumption := 0, discount := 1 })

/-- C8 witness: the rank query on the 15-account fixture returns exactly
ten rows, sorted by descending balance. -/
theorem rank_top10_witness :
    (rankQuery wRows).length = 10 ∧
    List.Pairwise (fun a b => b.balance ≤ a.balance) (rankQuery wRows) := by
  have h := rank_top10 wRows (by rfl)
  exact ⟨h.1, h.2.1⟩

/-- Behaviour of the write half of a check-out when the snapshot passes
the affordability check: `_update_user` merges the snapshot-derived
values onto whatever row is currently stored. -/
theorem leaveWrite_success (s : Store) (qq : String) (snap cur : User)
    (t now fee : ℚ)
    (ht : snap.joined_at = some t) (hgrace : GRACE_PERIOD_SECONDS < now - t)
    (hcur : s qq = some cur)
    (hfee : fee = ((ceilDiv (now - t) 1800 : ℤ) : ℚ) * FEE_PER_30_MINS * snap.discount)
    (haff : ¬ snap.balance < fee) :
    leaveWrite s qq snap now =
      (.success (now - t) fee,
       setStore s qq { cur with balance := snap.balance - fee,
                                today_consumption := snap.today_consumption + fee,
                                total_time := snap.total_time + (now - t),
                                joined_at := none }) := by
  simp only [leaveWrite, ht]
  rw [if_neg (not_le.mpr hgrace), ← hfee, if_neg haff, hcur]

/-- C3 demonstration: with balance 3 — exactly one 3-unit fee — two
check-outs interleaved as load₁, load₂, write₁, write₂ (reachable, since
the lock is released between the load and the write) both report
success, and the balance is debited once in total. -/
theorem double_checkout_race :
    (twoLeavesLoadLoadWriteWrite wStore "100" "20260101" 1800).1 =
      .success (1800 - 0) 3 ∧
    (twoLeavesLoadLoadWriteWrite wStore "100" "20260101" 1800).2.1 =
      .success (1800 - 0) 3 ∧
    balanceOf (twoLeavesLoadLoadWriteWrite wStore "100" "20260101" 1800).2.2 "100" =
      0 := by
  have hg1 := getUser_same_day wStore "100" "20260101" wUser rfl rfl
  have hs1 : setStore wStore "100" wUser "100" = some wUser := setStore_self _ _ _
  have hg2 := getUser_same_day (setStore wStore "100" wUser) "100" "20260101" wUser
    hs1 rfl
  have hgrace : GRACE_PERIOD_SECONDS < (1800:ℚ) - 0 := by
    norm_num [GRACE_PERIOD_SECONDS]
  have hcd : ceilDiv ((1800:ℚ) - 0) 1800 = 1 := by
    rw [ceilDiv_eq_ceil _ _ (by norm_num)]
    rw [show ((1800:ℚ) - 0) / ((1800:ℕ):ℚ) = 1 by push_cast; norm_num]
    exact Int.ceil_one
  have hfee : (3:ℚ) = ((ceilDiv ((1800:ℚ) - 0) 1800 : ℤ) : ℚ) * FEE_PER_30_MINS
      * wUser.discount := by
    rw [hcd]
    norm_num [FEE_PER_30_MINS, HOURLY_FEE, wUser]
  have haff : ¬ wUser.balance < (3:ℚ) := by
    norm_num [wUser]
  have hw1 := leaveWrite_success
    (setStore (setStore wStore "100" wUser) "100" wUser) "100" wUser wUser
    0 1800 3 rfl hgrace (setStore_self _ _ _) hfee haff
  have hw2 := leaveWrite_success
    (setStore (setStore (setStore wStore "100" wUser) "100" wUser) "100"
      { wUser with balance := wUser.balance - 3,
                   today_consumption := wUser.today_consumption + 3,
                   total_time := wUser.total_time + (1800 - 0),
                   joined_at := none })
    "100" wUser
    { wUser with balance := wUser.balance - 3,
                 today_consumption := wUser.today_consumption + 3,
                 total_time := wUser.total_time + (1800 - 0),
                 joined_at := none }
    0 1800 3 rfl hgrace (setStore_self _ _ _) hfee haff
  simp only [twoLeavesLoadLoadWriteWrite, hg1, hg2, hw1, hw2]
  refine ⟨trivial, trivial, ?_⟩
  simp only [balanceOf, setStore_self]
  norm_num [wUser]

end Yyw
